import Mathlib

/-!
Verification of the genre-aware field-mapping / data-normalization layer of the
book-market repository: a shallow embedding of `shared/data_mapping.py`
(`DataMapper.format_field_value`, `extract_author_info`, `get_genre_display_name`,
`get_enhanced_book_data`) and of `calculate_market_metrics` from
`phase2-webapp/app/main.py`, together with theorems about the claims on them.

Modelling conventions:
* Python scalar values (string / number / boolean / null) are the inductive `Value`;
  Python numbers (int and float alike) are modelled as exact rationals.
* Python exceptions are modelled with `Except PyErr`; operations such as `float(x)`
  or attribute access that can raise return `Except`, and `try/except` blocks are
  explicit matches on the error kind (only `ValueError`/`TypeError` are caught by
  the code's handlers, any other kind propagates).
* Python dicts with string keys are association lists with first-match lookup and
  replace-in-place-or-append assignment, matching dict insertion-order semantics.
* Core string ops used by the code (`split`, `strip`, `in`, `%` formats) are
  implemented structurally on `List Char` so that concrete runs reduce in the
  kernel.  Unicode whitespace beyond ASCII and binary-float representation
  artifacts of CPython are not modelled; no claim depends on them.
-/

namespace BookLab

/-- Kinds of Python exceptions that the embedded code can raise. -/
inductive PyErr where
  | valueError
  | typeError
  | attributeError
deriving DecidableEq

/-- A Python scalar value: string, number, boolean, or null (`None`).
Numbers (int or float) are modelled as exact rationals. -/
inductive Value where
  | null
  | bool (b : Bool)
  | num (q : ℚ)
  | str (s : String)
deriving DecidableEq

instance exceptDecEq {ε α : Type} [DecidableEq ε] [DecidableEq α] : DecidableEq (Except ε α) :=
  fun a b =>
    match a, b with
    | .ok x, .ok y => decidable_of_iff (x = y) (by simp)
    | .error x, .error y => decidable_of_iff (x = y) (by simp)
    | .ok _, .error _ => isFalse (by simp)
    | .error _, .ok _ => isFalse (by simp)

/-- Python truthiness of a scalar (`bool(v)`). -/
def Value.isTruthy : Value → Bool
  | .null => false
  | .bool b => b
  | .num q => q ≠ 0
  | .str s => s ≠ ""

/-- A Python dict with string keys, as an insertion-ordered association list. -/
abbrev Dict := List (String × Value)

/-- Dict lookup (`d[k]` / `k in d`): first binding wins. -/
def dictGet? : Dict → String → Option Value
  | [], _ => none
  | (k', v) :: rest, k => if k' = k then some v else dictGet? rest k

/-- Dict assignment `d[k] = v`: replaces the value in place if the key exists,
otherwise appends the new binding at the end (Python dict semantics). -/
def dictInsert : Dict → String → Value → Dict
  | [], k, v => [(k, v)]
  | (k', v') :: rest, k, v =>
      if k' = k then (k, v) :: rest else (k', v') :: dictInsert rest k v

/-- Lookup in a string-to-string mapping (the genre taxonomy). -/
def lookupStr : List (String × String) → String → Option String
  | [], _ => none
  | (k', v) :: rest, k => if k' = k then some v else lookupStr rest k

/-! ### Character-level string helpers (kernel-reducible) -/

/-- ASCII whitespace, as stripped by Python's `str.strip()`. -/
def isPySpace (c : Char) : Bool :=
  c = ' ' ∨ c = '\t' ∨ c = '\n' ∨ c = '\r' ∨ c = '\x0b' ∨ c = '\x0c'

/-- Python `str.strip()` on a char list. -/
def stripChars (l : List Char) : List Char :=
  ((l.dropWhile isPySpace).reverse.dropWhile isPySpace).reverse

/-- Python `str.strip()`. -/
def pyStrip (s : String) : String := (stripChars s.data).asString

/-- Auxiliary for `pySplit`: current token is accumulated in reverse. -/
def splitCharAux (sep : Char) : List Char → List Char → List String
  | [], acc => [acc.reverse.asString]
  | c :: cs, acc =>
      if c = sep then acc.reverse.asString :: splitCharAux sep cs []
      else splitCharAux sep cs (c :: acc)

/-- Python `s.split(sep)` for a one-character separator. -/
def pySplit (sep : Char) (s : String) : List String := splitCharAux sep s.data []

/-- Python `sep in s` for a one-character needle. -/
def containsChar (c : Char) (s : String) : Bool := s.data.any (fun x => x = c)

/-- Python `'_'.replace` specialised to one-character pattern and replacement. -/
def replaceChar (pat rep : Char) (s : String) : String :=
  (s.data.map (fun c => if c = pat then rep else c)).asString

/-- Auxiliary for `pyTitle`: the flag says whether the previous character was cased. -/
def pyTitleAux : Bool → List Char → List Char
  | _, [] => []
  | prev, c :: cs =>
      (if c.isAlpha then (if prev then c.toLower else c.toUpper) else c)
        :: pyTitleAux c.isAlpha cs

/-- Python `str.title()` (ASCII letters as the cased characters): the first letter
of every maximal letter run is uppercased, the rest lowercased. -/
def pyTitle (s : String) : String := (pyTitleAux false s.data).asString

/-! ### Python numeric conversions and f-string formats -/

/-- A digit part in CPython's number grammar with PEP 515 underscores:
`digit (_? digit)*`, maximal munch.  Accumulates (value, digit count) and returns
the unconsumed rest; an underscore not followed by a digit is left unconsumed. -/
def digitPartAux : List Char → ℕ → ℕ → ℕ × ℕ × List Char
  | [], acc, cnt => (acc, cnt, [])
  | c :: cs, acc, cnt =>
      if c.isDigit then digitPartAux cs (acc * 10 + (c.toNat - 48)) (cnt + 1)
      else if c = '_' then
        match cs with
        | d :: ds =>
            if d.isDigit then digitPartAux ds (acc * 10 + (d.toNat - 48)) (cnt + 1)
            else (acc, cnt, c :: cs)
        | [] => (acc, cnt, c :: cs)
      else (acc, cnt, c :: cs)

/-- A digit part must start with a digit (so `_1` and the empty run fail). -/
def digitPart? : List Char → Option (ℕ × ℕ × List Char)
  | c :: cs => if c.isDigit then some (digitPartAux (c :: cs) 0 0) else none
  | [] => none

/-- The exponent of CPython's float grammar: `(e|E) sign? digitpart`. -/
def expPart? : List Char → Option (ℤ × List Char)
  | c :: cs =>
      if c = 'e' ∨ c = 'E' then
        match cs with
        | '+' :: r => (digitPart? r).map (fun t => ((t.1 : ℤ), t.2.2))
        | '-' :: r => (digitPart? r).map (fun t => (-(t.1 : ℤ), t.2.2))
        | r => (digitPart? r).map (fun t => ((t.1 : ℤ), t.2.2))
      else none
  | [] => none

/-- Assemble the float value from integer part `iv`, fraction part `fv` with `fc`
digits and what remains: either nothing, or an exponent consuming the rest. -/
def parseFloatFinish (sign : ℚ) (iv fv : ℕ) (fc : ℕ) (rest : List Char) : Option ℚ :=
  match rest with
  | [] => some (sign * ((iv : ℚ) + (fv : ℚ) / (10 : ℚ) ^ fc))
  | _ =>
      match expPart? rest with
      | some (e, []) => some (sign * ((iv : ℚ) + (fv : ℚ) / (10 : ℚ) ^ fc) * (10 : ℚ) ^ e)
      | _ => none

/-- The number part of CPython's float grammar after the optional sign:
`digitpart [. [digitpart]] [exponent]` or `. digitpart [exponent]`. -/
def parseFloatCore (l : List Char) (sign : ℚ) : Option ℚ :=
  match l with
  | '.' :: r =>
      match digitPart? r with
      | some (fv, fc, rest) => parseFloatFinish sign 0 fv fc rest
      | none => none
  | _ =>
      match digitPart? l with
      | some (iv, _, rest) =>
          match rest with
          | '.' :: r2 =>
              match digitPart? r2 with
              | some (fv, fc, rest2) => parseFloatFinish sign iv fv fc rest2
              | none => parseFloatFinish sign iv 0 0 r2
          | _ => parseFloatFinish sign iv 0 0 rest
      | none => none

/-- Python `float(s)` on a string: optional surrounding whitespace, optional
sign, then a decimal form `digits [. [digits]] [exp]` or `. digits [exp]` with
PEP 515 underscores between digits, where `exp = (e|E) sign? digits`.  This is
exact w.r.t. CPython on strings of `floatExactChar` characters apart from the
`inf`/`nan` forms (`isInfNanForm`), which denote non-finite floats that the
exact-rational value model cannot carry; non-ASCII digit/whitespace forms are
likewise outside the model.  Values are exact rationals: binary-float rounding
and overflow (e.g. `float("1e400") == inf`) are idealized away, as everywhere in
this model. -/
def parseFloat (s : String) : Option ℚ :=
  match stripChars s.data with
  | '+' :: r => parseFloatCore r 1
  | '-' :: r => parseFloatCore r (-1)
  | r => parseFloatCore r 1

/-- Characters on which the embedded float grammar is exact w.r.t. CPython:
ASCII, excluding the control characters 0x1C-0x1F, which CPython's parsers strip
as whitespace but the ASCII `strip` model does not.  Outside this set CPython
accepts further forms (non-ASCII digits and whitespace) that the model does not. -/
def floatExactChar (c : Char) : Bool :=
  c.toNat < 128 && !(28 ≤ c.toNat && c.toNat ≤ 31)

/-- All characters of the string are in the float-exact range. -/
def floatExactStr (s : String) : Bool := s.data.all floatExactChar

/-- The case-insensitive `inf`/`infinity`/`nan` literals (with optional sign)
that CPython's `float()` accepts; they denote non-finite values outside the
exact-rational model. -/
def isInfNanForm (s : String) : Bool :=
  let core := fun (r : List Char) =>
    r == "inf".data || r == "infinity".data || r == "nan".data
  match (stripChars s.data).map Char.toLower with
  | '+' :: r => core r
  | '-' :: r => core r
  | r => core r

/-- Python `int(s)` on a string: optional whitespace, optional sign, then a
digit part (with PEP 515 underscores) consuming the whole rest.  Non-ASCII digit
forms are not modelled; no claim depends on string inputs to `int()`. -/
def parseIntStr (s : String) : Option ℤ :=
  let core := fun (r : List Char) (sign : ℤ) =>
    match digitPart? r with
    | some (n, _, []) => some (sign * n)
    | _ => none
  match stripChars s.data with
  | '+' :: r => core r 1
  | '-' :: r => core r (-1)
  | r => core r 1

/-- Python `float(value)` on a scalar: numbers pass through, booleans become 0/1,
strings are parsed (`ValueError` on failure), `None` raises `TypeError`. -/
def pyFloat : Value → Except PyErr ℚ
  | .num q => .ok q
  | .bool b => .ok (if b then 1 else 0)
  | .null => .error .typeError
  | .str s =>
      match parseFloat s with
      | some q => .ok q
      | none => .error .valueError

/-- Python `int(value)` truncation toward zero for a number `q`. -/
def truncInt (q : ℚ) : ℤ :=
  if q.num < 0 then -(q.num.natAbs / q.den : ℕ) else (q.num.natAbs / q.den : ℕ)

/-- Python `int(value)` on a scalar: floats truncate toward zero, booleans become
0/1, strings must be integer literals (`ValueError`), `None` raises `TypeError`. -/
def pyInt : Value → Except PyErr ℤ
  | .num q => .ok (truncInt q)
  | .bool b => .ok (if b then 1 else 0)
  | .null => .error .typeError
  | .str s =>
      match parseIntStr s with
      | some n => .ok n
      | none => .error .valueError

/-- Left-pad a string with zeros to the given length. -/
def padZeros (p : Nat) (s : String) : String :=
  (List.replicate (p - s.length) '0').asString ++ s

/-- Python's fixed-point format `f"{q:.p f}"` on an exact rational: round half to
even at `p` decimal places.  Computed on numerator/denominator with natural-number
arithmetic so that concrete values reduce in the kernel. -/
def fmtFixed (p : Nat) (q : ℚ) : String :=
  let scaledNum : ℕ := q.num.natAbs * 10 ^ p
  let f : ℕ := scaledNum / q.den
  let r : ℕ := scaledNum % q.den
  let n : ℕ :=
    if 2 * r < q.den then f
    else if q.den < 2 * r then f + 1
    else if f % 2 = 0 then f else f + 1
  (if q.num < 0 then "-" else "") ++ toString (n / 10 ^ p) ++ "." ++
    padZeros p (toString (n % 10 ^ p))

/-- Auxiliary for `thousandsFmt`: input and output digit lists are reversed. -/
def group3 : List Char → List Char
  | a :: b :: c :: d :: rest => a :: b :: c :: ',' :: group3 (d :: rest)
  | l => l

/-- Python's thousands-grouped integer format `f"{n:,}"`. -/
def thousandsFmt (n : ℤ) : String :=
  (if n < 0 then "-" else "") ++ ((group3 (toString n.natAbs).data.reverse).reverse).asString

/-- The star prefix of the rating format: `"⭐" * int(rating)` (a negative repeat
count yields the empty string, as in Python). -/
def starRepeat (n : ℤ) : String := (List.replicate n.toNat '⭐').asString

/-- Python `str(value)` on a scalar.  The exact CPython float `repr` is not
modelled: a non-integral rational is rendered as `num/den`; no claim inspects
the rendering of numbers. -/
def pyStr : Value → String
  | .str s => s
  | .bool b => if b then "True" else "False"
  | .null => "None"
  | .num q => if q.den = 1 then toString q.num else toString q.num ++ "/" ++ toString q.den

/-- The `try: ... float(value) ... except (ValueError, TypeError): return str(value)`
pattern: only those two error kinds are caught, anything else propagates. -/
def tryFloat (v : Value) (g : ℚ → String) : Except PyErr String :=
  match pyFloat v with
  | .ok q => .ok (g q)
  | .error .valueError => .ok (pyStr v)
  | .error .typeError => .ok (pyStr v)
  | .error e => .error e

/-- The same `try/except` pattern around `int(value)`. -/
def tryInt (v : Value) (g : ℤ → String) : Except PyErr String :=
  match pyInt v with
  | .ok n => .ok (g n)
  | .error .valueError => .ok (pyStr v)
  | .error .typeError => .ok (pyStr v)
  | .error e => .error e

/-! ### DataMapper.format_field_value

The mapper's field-spec table is loaded from `data_map.yaml`; only membership of a
field name in that table matters to `format_field_value` and to the enhancer, so it
is embedded as the list `fs` of field names that have a spec. -/

/-- `DataMapper.format_field_value(field_name, value)` from `shared/data_mapping.py`,
parametrised by the names `fs` that have field specs. -/
def format_field_value (fs : List String) (field : String) (v : Value) : Except PyErr String :=
  if v = .null ∨ v = .str "" then .ok "N/A"
  else if field ∉ fs then .ok (pyStr v)
  else if field = "price" then
    tryFloat v (fun q => "$" ++ fmtFixed 2 q)
  else if field = "reviewAverage" then
    tryFloat v (fun q => starRepeat (truncInt q) ++ " " ++ fmtFixed 1 q)
  else if field = "nReviews" then
    tryInt v thousandsFmt
  else if field = "releaseDate" then .ok (pyStr v)
  else if field = "isTrad" then
    .ok (match v with
         | .bool b => if b then "Yes" else "No"
         | _ => pyStr v)
  else if field = "isFree" then
    .ok (match v with
         | .bool b => if b then "Free" else "Paid"
         | _ => pyStr v)
  else if field = "topicTags" ∨ field = "subcatsList" then
    .ok (match v with
         | .str s =>
             if containsChar '|' s then
               String.intercalate ", " (((pySplit '|' s).map pyStrip).filter (fun t => t ≠ ""))
             else if containsChar '#' s then
               String.intercalate ", " (((pySplit '#' s).map pyStrip).filter (fun t => t ≠ ""))
             else pyStr v
         | _ => pyStr v)
  else .ok (pyStr v)

/-! ### Genre display name -/

/-- `DataMapper.get_genre_display_name(genre_code)`: the taxonomy lookup with the
title-cased, underscore-replaced fallback.  (Python evaluates the fallback
expression eagerly as the `dict.get` default argument; for a string code that
expression is total, so the observable behaviour is this match.) -/
def get_genre_display_name (gm : List (String × String)) (code : String) : String :=
  match lookupStr gm code with
  | some n => n
  | none => pyTitle (replaceChar '_' ' ' code)

/-! ### Author-reference extraction

`re.search(r'\[([^\]]+)\]\(([^)]+)\)', text)` is embedded as a leftmost scan:
at a given start the pattern matches iff the text has `[`, then a nonempty run of
non-`]`, then `](`, then a nonempty run of non-`)`, then `)`; the greedy classes
cannot backtrack past their first terminator, so this decoding is exact. -/

/-- Match the markdown-link pattern anchored at the start of `l`, returning the
two capture groups (name, url). -/
def matchLinkAt : List Char → Option (String × String)
  | '[' :: rest =>
      let name := rest.takeWhile (fun c => c ≠ ']')
      match rest.dropWhile (fun c => c ≠ ']') with
      | ']' :: '(' :: rest2 =>
          let url := rest2.takeWhile (fun c => c ≠ ')')
          match rest2.dropWhile (fun c => c ≠ ')') with
          | ')' :: _ =>
              if name.isEmpty ∨ url.isEmpty then none
              else some (name.asString, url.asString)
          | _ => none
      | _ => none
  | _ => none

/-- Leftmost search for the markdown-link pattern (`re.search` semantics). -/
def findLinkAux : List Char → Option (String × String)
  | [] => none
  | c :: rest =>
      match matchLinkAt (c :: rest) with
      | some p => some p
      | none => findLinkAux rest

/-- `re.search` of the markdown-link pattern over a string. -/
def findLink (s : String) : Option (String × String) := findLinkAux s.data

/-- `[A-Z0-9]` (ASCII uppercase alphanumeric). -/
def isIdChar (c : Char) : Bool := c.isUpper || c.isDigit

/-- Match `/([A-Z0-9]{10,})/?$` anchored at the start of `l` (which must reach the
end of the string): a slash, a 10+ run of uppercase alphanumerics, then either the
end or one final slash. -/
def matchIsbnAt : List Char → Option String
  | '/' :: rest =>
      let run := rest.takeWhile isIdChar
      let rem := rest.dropWhile isIdChar
      if 10 ≤ run.length ∧ (rem = [] ∨ rem = ['/']) then some run.asString else none
  | _ => none

/-- Leftmost search for the catalog-id pattern. -/
def findIsbnAux : List Char → Option String
  | [] => none
  | c :: rest =>
      match matchIsbnAt (c :: rest) with
      | some p => some p
      | none => findIsbnAux rest

/-- `re.search(r'/([A-Z0-9]{10,})/?$', url)`, returning group 1. -/
def extractIsbn (url : String) : Option String := findIsbnAux url.data

/-- `DataMapper.extract_author_info(author_text)` for a string input. -/
def extract_author_info (t : String) : String × Option String × Option String :=
  if t = "" then ("Unknown Author", none, none)
  else
    match findLink t with
    | some (n, u) => (n, some u, extractIsbn u)
    | none => (t, none, none)

/-- `extract_author_info` applied to an arbitrary scalar, as the enhancer does:
a falsy value takes the "Unknown Author" early return, a truthy non-string makes
`re.search` raise `TypeError`. -/
def extractAuthorVal (v : Value) : Except PyErr (String × Option String × Option String) :=
  if v.isTruthy = false then .ok ("Unknown Author", none, none)
  else
    match v with
    | .str s => .ok (extract_author_info s)
    | _ => .error .typeError

/-! ### DataMapper.get_enhanced_book_data -/

/-- Python `None`-or-string, as stored into the enhanced dict for the author url/isbn. -/
def optToValue : Option String → Value
  | some s => .str s
  | none => .null

/-- The genre step of the enhancer: if a `genre` key is present, derive
`genre_display`.  A non-string genre value raises `AttributeError`, because the
eagerly evaluated `dict.get` fallback calls `.replace` on it. -/
def enhanceGenre (gm : List (String × String)) (d : Dict) : Except PyErr Dict :=
  match dictGet? d "genre" with
  | none => .ok d
  | some (.str s) => .ok (dictInsert d "genre_display" (.str (get_genre_display_name gm s)))
  | some _ => .error .attributeError

/-- The author step of the enhancer: if an `Author` key is present, run the
extractor and store the three derived fields. -/
def enhanceAuthor (d : Dict) : Except PyErr Dict :=
  match dictGet? d "Author" with
  | none => .ok d
  | some v =>
      match extractAuthorVal v with
      | .ok (n, u, i) =>
          .ok (dictInsert (dictInsert (dictInsert d "author_name" (.str n))
                "author_url" (optToValue u)) "author_isbn" (optToValue i))
      | .error e => .error e

/-- The formatting loop of the enhancer: iterate over the snapshot
`items_to_format` and add `<field>_formatted` for every field with a spec. -/
def formatLoop (fs : List String) : List (String × Value) → Dict → Except PyErr Dict
  | [], d => .ok d
  | (f, v) :: rest, d =>
      if f ∈ fs then
        match format_field_value fs f v with
        | .ok s => formatLoop fs rest (dictInsert d (f ++ "_formatted") (.str s))
        | .error e => .error e
      else formatLoop fs rest d

/-- `DataMapper.get_enhanced_book_data(book_data)`: work on a copy of the record,
derive `genre_display`, the author fields, and the `<field>_formatted` fields. -/
def get_enhanced_book_data (fs : List String) (gm : List (String × String))
    (d : Dict) : Except PyErr Dict :=
  match enhanceGenre gm d with
  | .error e => .error e
  | .ok d1 =>
      match enhanceAuthor d1 with
      | .error e => .error e
      | .ok d2 => formatLoop fs d2 d2

/-! ### A two-cell heap model of the enhancer call

`get_enhanced_book_data` starts with `enhanced = book_data.copy()` and writes only
into `enhanced`.  To state that the caller's dict is not mutated, the call is also
modelled against an explicit heap of dict cells: the input is a cell address, the
copy allocates a fresh cell, and all writes go to the fresh cell. -/

/-- Run the enhancer against a heap of dict cells: allocate a fresh cell holding a
copy of the input cell, write the enhanced dict (if any) only to the fresh cell,
and return the new heap together with the result address or the raised error. -/
def enhanceOnHeap (fs : List String) (gm : List (String × String))
    (h : List Dict) (bd : Nat) : List Dict × Except PyErr Nat :=
  let enh := h.length
  let h1 := h ++ [h.getD bd []]
  match get_enhanced_book_data fs gm (h1.getD enh []) with
  | .ok d => (h1.set enh d, .ok enh)
  | .error e => (h1, .error e)

/-! ### calculate_market_metrics (phase2-webapp/app/main.py) -/

/-- One aggregated genre-stats row.  The four base columns come from the query
layer; the five derived columns are `none` until `calculate_market_metrics`
assigns them. -/
structure GenreStatsRow where
  book_count : ℚ
  avg_price : ℚ
  avg_rating : ℚ
  avg_reviews : ℚ
  market_opportunity : Option ℚ := none
  competition_level : Option ℚ := none
  quality_threshold : Option ℚ := none
  revenue_potential : Option ℚ := none
  entry_difficulty : Option ℚ := none
deriving DecidableEq

/-- The pandas `Series.max()` over a column, for a nonempty frame. -/
def listMax : List ℚ → ℚ
  | [] => 0
  | [x] => x
  | x :: y :: rest => max x (listMax (y :: rest))

/-- The per-row assignment of `calculate_market_metrics`, given the two column
maxima.  `entry_difficulty` reads the freshly assigned `competition_level` and
`quality_threshold` columns, hence the sequential lets. -/
def marketStep (maxBC maxAR : ℚ) (r : GenreStatsRow) : GenreStatsRow :=
  let mo := (r.avg_price * r.avg_reviews * r.avg_rating) / r.book_count
  let cl := r.book_count / maxBC * 100
  let qt := r.avg_rating * (r.avg_reviews / maxAR)
  let rp := r.avg_price * r.avg_reviews
  let ed := (cl + qt * 20) / 2
  { r with
    market_opportunity := some mo
    competition_level := some cl
    quality_threshold := some qt
    revenue_potential := some rp
    entry_difficulty := some ed }

/-- `calculate_market_metrics(df)`: assign the five derived columns; the two
maxima are taken over the base columns of the full row set, which the assignments
never change. -/
def calculate_market_metrics (df : List GenreStatsRow) : List GenreStatsRow :=
  df.map (marketStep (listMax (df.map (fun r => r.book_count)))
                     (listMax (df.map (fun r => r.avg_reviews))))

/-! ### Helper lemmas -/

theorem pyFloat_ne_attr (v : Value) : pyFloat v ≠ .error .attributeError := by
  cases v with
  | null => simp [pyFloat]
  | bool b => simp [pyFloat]
  | num q => simp [pyFloat]
  | str s => cases h : parseFloat s <;> simp [pyFloat, h]

theorem pyInt_ne_attr (v : Value) : pyInt v ≠ .error .attributeError := by
  cases v with
  | null => simp [pyInt]
  | bool b => simp [pyInt]
  | num q => simp [pyInt]
  | str s => cases h : parseIntStr s <;> simp [pyInt, h]

theorem tryFloat_ok (v : Value) (g : ℚ → String) : ∃ s, tryFloat v g = Except.ok s := by
  cases hp : pyFloat v with
  | ok q => exact ⟨g q, by simp [tryFloat, hp]⟩
  | error e =>
    cases e with
    | valueError => exact ⟨pyStr v, by simp [tryFloat, hp]⟩
    | typeError => exact ⟨pyStr v, by simp [tryFloat, hp]⟩
    | attributeError => exact absurd hp (pyFloat_ne_attr v)

theorem tryInt_ok (v : Value) (g : ℤ → String) : ∃ s, tryInt v g = Except.ok s := by
  cases hp : pyInt v with
  | ok n => exact ⟨g n, by simp [tryInt, hp]⟩
  | error e =>
    cases e with
    | valueError => exact ⟨pyStr v, by simp [tryInt, hp]⟩
    | typeError => exact ⟨pyStr v, by simp [tryInt, hp]⟩
    | attributeError => exact absurd hp (pyInt_ne_attr v)

/-- `format_field_value` is total: it evaluates to `.ok` on every scalar. -/
theorem format_total (fs : List String) (f : String) (v : Value) :
    ∃ s, format_field_value fs f v = Except.ok s := by
  unfold format_field_value
  by_cases h1 : v = Value.null ∨ v = Value.str ""
  · rw [if_pos h1]; exact ⟨_, rfl⟩
  rw [if_neg h1]
  by_cases h2 : f ∉ fs
  · rw [if_pos h2]; exact ⟨_, rfl⟩
  rw [if_neg h2]
  by_cases h3 : f = "price"
  · rw [if_pos h3]; exact tryFloat_ok v _
  rw [if_neg h3]
  by_cases h4 : f = "reviewAverage"
  · rw [if_pos h4]; exact tryFloat_ok v _
  rw [if_neg h4]
  by_cases h5 : f = "nReviews"
  · rw [if_pos h5]; exact tryInt_ok v _
  rw [if_neg h5]
  by_cases h6 : f = "releaseDate"
  · rw [if_pos h6]; exact ⟨_, rfl⟩
  rw [if_neg h6]
  by_cases h7 : f = "isTrad"
  · rw [if_pos h7]; exact ⟨_, rfl⟩
  rw [if_neg h7]
  by_cases h8 : f = "isFree"
  · rw [if_pos h8]; exact ⟨_, rfl⟩
  rw [if_neg h8]
  by_cases h9 : f = "topicTags" ∨ f = "subcatsList"
  · rw [if_pos h9]; exact ⟨_, rfl⟩
  rw [if_neg h9]
  exact ⟨_, rfl⟩

theorem dictGet?_insert_ne (d : Dict) (k j : String) (v : Value) (hkj : k ≠ j) :
    dictGet? (dictInsert d j v) k = dictGet? d k := by
  induction d with
  | nil =>
      simp only [dictInsert, dictGet?]
      rw [if_neg (fun h => hkj h.symm)]
  | cons p rest ih =>
      obtain ⟨pk, pv⟩ := p
      by_cases hp : pk = j
      · subst hp
        simp only [dictInsert, if_pos rfl, dictGet?]
        rw [if_neg (fun h => hkj h.symm), if_neg (fun h => hkj h.symm)]
      · simp only [dictInsert, if_neg hp, dictGet?]
        by_cases hk : pk = k
        · rw [if_pos hk, if_pos hk]
        · rw [if_neg hk, if_neg hk, ih]

theorem formatLoop_ok (fs : List String) (items : List (String × Value)) (d : Dict) :
    ∃ d', formatLoop fs items d = Except.ok d' := by
  induction items generalizing d with
  | nil => exact ⟨d, rfl⟩
  | cons p rest ih =>
      obtain ⟨f, v⟩ := p
      by_cases hf : f ∈ fs
      · obtain ⟨s, hs⟩ := format_total fs f v
        simpa [formatLoop, hf, hs] using ih (dictInsert d (f ++ "_formatted") (Value.str s))
      · simpa [formatLoop, hf] using ih d

theorem formatLoop_preserves (fs : List String) (items : List (String × Value))
    (k : String) (hk : ∀ f, k ≠ f ++ "_formatted") :
    ∀ d d' v, formatLoop fs items d = Except.ok d' → dictGet? d k = some v →
      dictGet? d' k = some v := by
  induction items with
  | nil =>
      intro d d' v hok hget
      cases hok
      exact hget
  | cons p rest ih =>
      intro d d' v hok hget
      obtain ⟨f, v'⟩ := p
      by_cases hf : f ∈ fs
      · obtain ⟨s, hs⟩ := format_total fs f v'
        rw [formatLoop, if_pos hf, hs] at hok
        exact ih _ _ _ hok (by rw [dictGet?_insert_ne _ _ _ _ (hk f)]; exact hget)
      · rw [formatLoop, if_neg hf] at hok
        exact ih _ _ _ hok hget

/-- If the leftmost scan finds a link, it is the match at the first position where
the pattern matches: every earlier start fails. -/
theorem findLinkAux_first (l : List Char) (p : String × String)
    (h : findLinkAux l = some p) :
    ∃ i, matchLinkAt (l.drop i) = some p ∧ ∀ j, j < i → matchLinkAt (l.drop j) = none := by
  induction l with
  | nil => simp [findLinkAux] at h
  | cons c rest ih =>
      rw [findLinkAux] at h
      cases hm : matchLinkAt (c :: rest) with
      | some q =>
          rw [hm] at h
          exact ⟨0, by simpa using hm.trans (by simpa using h), by omega⟩
      | none =>
          rw [hm] at h
          obtain ⟨i, h1, h2⟩ := ih h
          refine ⟨i + 1, by simpa using h1, ?_⟩
          intro j hj
          cases j with
          | zero => simpa using hm
          | succ n => simpa using h2 n (by omega)

theorem enhanceGenre_preserves (gm : List (String × String)) (d d1 : Dict)
    (k : String) (v : Value) (hk : k ≠ "genre_display")
    (hok : enhanceGenre gm d = Except.ok d1) (hget : dictGet? d k = some v) :
    dictGet? d1 k = some v := by
  unfold enhanceGenre at hok
  cases hg : dictGet? d "genre" with
  | none => rw [hg] at hok; cases hok; exact hget
  | some w =>
      rw [hg] at hok
      cases w with
      | str s =>
          cases hok
          rw [dictGet?_insert_ne _ _ _ _ hk]
          exact hget
      | null => cases hok
      | bool b => cases hok
      | num q => cases hok

theorem enhanceAuthor_preserves (d d1 : Dict) (k : String) (v : Value)
    (h1 : k ≠ "author_name") (h2 : k ≠ "author_url") (h3 : k ≠ "author_isbn")
    (hok : enhanceAuthor d = Except.ok d1) (hget : dictGet? d k = some v) :
    dictGet? d1 k = some v := by
  cases ha : dictGet? d "Author" with
  | none =>
      unfold enhanceAuthor at hok
      rw [ha] at hok
      cases hok
      exact hget
  | some w =>
      cases he : extractAuthorVal w with
      | error e => simp [enhanceAuthor, ha, he] at hok
      | ok t =>
          obtain ⟨n, u, i⟩ := t
          simp only [enhanceAuthor, ha, he, Except.ok.injEq] at hok
          subst hok
          rw [dictGet?_insert_ne _ _ _ _ h3, dictGet?_insert_ne _ _ _ _ h2,
              dictGet?_insert_ne _ _ _ _ h1]
          exact hget

theorem enhanceAuthor_lookup (d : Dict) (d1 : Dict) (gm : List (String × String))
    (hok : enhanceGenre gm d = Except.ok d1) :
    dictGet? d1 "Author" = dictGet? d "Author" := by
  unfold enhanceGenre at hok
  cases hg : dictGet? d "genre" with
  | none => rw [hg] at hok; cases hok; rfl
  | some w =>
      rw [hg] at hok
      cases w with
      | str s => cases hok; exact dictGet?_insert_ne _ _ _ _ (by decide)
      | null => cases hok
      | bool b => cases hok
      | num q => cases hok

/-- If a string is shorter than 10 characters it cannot be of the form
`f ++ "_formatted"`. -/
theorem ne_append_formatted_of_short (k : String) (h : k.length < 10) :
    ∀ f, k ≠ f ++ "_formatted" := by
  intro f hf
  have hlen := congrArg String.length hf
  rw [String.length_append] at hlen
  have h10 : String.length "_formatted" = 10 := rfl
  omega

theorem marketStep_map_book_count (df : List GenreStatsRow) (a b : ℚ) :
    (df.map (marketStep a b)).map (fun r => r.book_count) = df.map (fun r => r.book_count) := by
  induction df with
  | nil => rfl
  | cons r rest ih => simp [marketStep, ih]

theorem marketStep_map_avg_reviews (df : List GenreStatsRow) (a b : ℚ) :
    (df.map (marketStep a b)).map (fun r => r.avg_reviews) = df.map (fun r => r.avg_reviews) := by
  induction df with
  | nil => rfl
  | cons r rest ih => simp [marketStep, ih]

/-! ### The claims -/

/-- C1: on a non-empty row set whose rows all have `book_count ≥ 1`,
`calculate_market_metrics` assigns to every row exactly the five formulas of the
claim: `market_opportunity = avg_price * avg_reviews * avg_rating / book_count`,
`competition_level = book_count / max book_count * 100`,
`quality_threshold = avg_rating * (avg_reviews / max avg_reviews)`,
`revenue_potential = avg_price * avg_reviews`, and
`entry_difficulty = (competition_level + quality_threshold * 20) / 2`. -/
theorem market_metrics_formulas (df : List GenreStatsRow) (hne : df ≠ [])
    (hbc : ∀ r ∈ df, 1 ≤ r.book_count) (i : ℕ) (r : GenreStatsRow)
    (hi : df.get? i = some r) :
    ∃ r', (calculate_market_metrics df).get? i = some r' ∧
      r'.market_opportunity = some ((r.avg_price * r.avg_reviews * r.avg_rating) / r.book_count) ∧
      r'.competition_level =
        some (r.book_count / listMax (df.map (fun x => x.book_count)) * 100) ∧
      r'.quality_threshold =
        some (r.avg_rating * (r.avg_reviews / listMax (df.map (fun x => x.avg_reviews)))) ∧
      r'.revenue_potential = some (r.avg_price * r.avg_reviews) ∧
      r'.entry_difficulty =
        some ((r.book_count / listMax (df.map (fun x => x.book_count)) * 100 +
               r.avg_rating * (r.avg_reviews / listMax (df.map (fun x => x.avg_reviews))) * 20) / 2) := by
  refine ⟨marketStep (listMax (df.map (fun x : GenreStatsRow => x.book_count)))
      (listMax (df.map (fun x : GenreStatsRow => x.avg_reviews))) r, ?_, rfl, rfl, rfl, rfl, rfl⟩
  unfold calculate_market_metrics
  rw [List.get?_map, hi]
  rfl

/-- Witness row set for the market-metrics claims. -/
def dfW : List GenreStatsRow := [⟨2, 3, 4, 5, none, none, none, none, none⟩]

theorem market_metrics_formulas_witness :
    ∃ r', (calculate_market_metrics dfW).get? 0 = some r' ∧
      r'.market_opportunity = some (((3 : ℚ) * 5 * 4) / 2) ∧
      r'.competition_level = some ((2 : ℚ) / listMax (dfW.map (fun x => x.book_count)) * 100) ∧
      r'.quality_threshold = some ((4 : ℚ) * (5 / listMax (dfW.map (fun x => x.avg_reviews)))) ∧
      r'.revenue_potential = some ((3 : ℚ) * 5) ∧
      r'.entry_difficulty =
        some (((2 : ℚ) / listMax (dfW.map (fun x => x.book_count)) * 100 +
               4 * (5 / listMax (dfW.map (fun x => x.avg_reviews))) * 20) / 2) :=
  market_metrics_formulas dfW (by simp [dfW])
    (by intro r hr; simp [dfW] at hr; rw [hr]; norm_num)
    0 ⟨2, 3, 4, 5, none, none, none, none, none⟩ rfl

/-- C2: `format_field_value` is total — for every field name, spec table and
scalar input it returns a string and never raises. -/
theorem format_field_value_total (fs : List String) (f : String) (v : Value) :
    ∃ s, format_field_value fs f v = Except.ok s :=
  format_total fs f v

/-- C9: `calculate_market_metrics` is idempotent — recomputing the derived
columns of an already augmented row set reproduces exactly the same values,
because the derived columns are functions of the unchanged base columns only. -/
theorem market_metrics_idempotent (df : List GenreStatsRow) :
    calculate_market_metrics (calculate_market_metrics df) = calculate_market_metrics df := by
  unfold calculate_market_metrics
  rw [marketStep_map_book_count, marketStep_map_avg_reviews, List.map_map]
  have hstep : marketStep (listMax (df.map (fun r => r.book_count)))
      (listMax (df.map (fun r => r.avg_reviews))) ∘
      marketStep (listMax (df.map (fun r => r.book_count)))
      (listMax (df.map (fun r => r.avg_reviews))) =
      marketStep (listMax (df.map (fun r => r.book_count)))
      (listMax (df.map (fun r => r.avg_reviews))) :=
    funext (fun r => rfl)
  rw [hstep]

theorem extractAuthorVal_str_ok (s : String) :
    ∃ t, extractAuthorVal (Value.str s) = Except.ok t := by
  unfold extractAuthorVal
  by_cases h : (Value.str s).isTruthy = false
  · rw [if_pos h]; exact ⟨_, rfl⟩
  · rw [if_neg h]; exact ⟨_, rfl⟩

theorem extractAuthorVal_falsy_ok (v : Value) (h : v.isTruthy = false) :
    extractAuthorVal v = Except.ok ("Unknown Author", none, none) := by
  unfold extractAuthorVal
  rw [if_pos h]

/-- C3 counterexample: a record with string keys and scalar values on which the
enhancer raises.  A numeric `genre` value reaches the eagerly evaluated
`genre_code.replace(...)` fallback of `dict.get` and raises `AttributeError`. -/
theorem enhancer_raises_on_nonstring_genre :
    get_enhanced_book_data [] [] [("genre", Value.num 1)] =
      Except.error PyErr.attributeError := by decide

/-- C3 (amended): on any record whose `genre` value (when present) is a string
and whose `Author` value (when present) is a string or falsy, the enhancer
returns an enhanced record and never raises; absent optional fields are simply
skipped. -/
theorem enhancer_total_amended (fs : List String) (gm : List (String × String))
    (d : Dict)
    (hg : ∀ v, dictGet? d "genre" = some v → ∃ s, v = Value.str s)
    (ha : ∀ v, dictGet? d "Author" = some v →
            (∃ s, v = Value.str s) ∨ v.isTruthy = false) :
    ∃ d', get_enhanced_book_data fs gm d = Except.ok d' := by
  have hstep1 : ∃ d1, enhanceGenre gm d = Except.ok d1 := by
    cases hge : dictGet? d "genre" with
    | none => exact ⟨d, by simp [enhanceGenre, hge]⟩
    | some v =>
        obtain ⟨s, rfl⟩ := hg v hge
        exact ⟨dictInsert d "genre_display" (Value.str (get_genre_display_name gm s)),
          by simp [enhanceGenre, hge]⟩
  obtain ⟨d1, h1⟩ := hstep1
  have hAuth : dictGet? d1 "Author" = dictGet? d "Author" := enhanceAuthor_lookup d d1 gm h1
  have hstep2 : ∃ d2, enhanceAuthor d1 = Except.ok d2 := by
    cases hae : dictGet? d1 "Author" with
    | none => exact ⟨d1, by simp [enhanceAuthor, hae]⟩
    | some v =>
        have hex : ∃ t, extractAuthorVal v = Except.ok t := by
          rcases ha v (hAuth ▸ hae) with ⟨s, rfl⟩ | hfal
          · exact extractAuthorVal_str_ok s
          · exact ⟨_, extractAuthorVal_falsy_ok v hfal⟩
        obtain ⟨t, ht⟩ := hex
        obtain ⟨n, u, i⟩ := t
        exact ⟨dictInsert (dictInsert (dictInsert d1 "author_name" (Value.str n))
            "author_url" (optToValue u)) "author_isbn" (optToValue i),
          by simp [enhanceAuthor, hae, ht]⟩
  obtain ⟨d2, h2⟩ := hstep2
  obtain ⟨d', h3⟩ := formatLoop_ok fs d2 d2
  exact ⟨d', by simp [get_enhanced_book_data, h1, h2, h3]⟩

theorem enhancer_total_amended_witness :
    ∃ d', get_enhanced_book_data [] [] [("Title", Value.str "t")] = Except.ok d' :=
  enhancer_total_amended [] [] [("Title", Value.str "t")]
    (by intro v h; simp [dictGet?] at h)
    (by intro v h; simp [dictGet?] at h)

/-- C4 counterexample: a record that already contains the derived key
`author_name` has that original value overwritten by the enhancer. -/
theorem enhancer_overwrites_author_name :
    get_enhanced_book_data [] []
        [("Author", Value.str "[A](u)"), ("author_name", Value.str "orig")] =
      Except.ok [("Author", Value.str "[A](u)"), ("author_name", Value.str "A"),
                 ("author_url", Value.str "u"), ("author_isbn", Value.null)] ∧
    Value.str "A" ≠ Value.str "orig" :=
  ⟨by decide, by decide⟩

/-- C4 (amended): the enhancer only adds keys, never altering original bindings,
provided the input record contains none of the derived key names
(`genre_display`, `author_name`, `author_url`, `author_isbn`, or any key of the
form `<field>_formatted`); a record that already uses one of those names has it
overwritten. -/
theorem enhancer_preserves_amended (fs : List String) (gm : List (String × String))
    (d d' : Dict)
    (hkeys : ∀ k, (dictGet? d k).isSome →
      k ≠ "genre_display" ∧ k ≠ "author_name" ∧ k ≠ "author_url" ∧
      k ≠ "author_isbn" ∧ ∀ f, k ≠ f ++ "_formatted")
    (hok : get_enhanced_book_data fs gm d = Except.ok d') :
    ∀ k v, dictGet? d k = some v → dictGet? d' k = some v := by
  intro k v hkv
  obtain ⟨hk1, hk2, hk3, hk4, hk5⟩ := hkeys k (by rw [hkv]; rfl)
  cases h1 : enhanceGenre gm d with
  | error e => simp [get_enhanced_book_data, h1] at hok
  | ok d1 =>
      cases h2 : enhanceAuthor d1 with
      | error e => simp [get_enhanced_book_data, h1, h2] at hok
      | ok d2 =>
          have hok2 : formatLoop fs d2 d2 = Except.ok d' := by
            simpa [get_enhanced_book_data, h1, h2] using hok
          exact formatLoop_preserves fs d2 k hk5 d2 d' v hok2
            (enhanceAuthor_preserves d1 d2 k v hk2 hk3 hk4 h2
              (enhanceGenre_preserves gm d d1 k v hk1 h1 hkv))

theorem enhancer_preserves_amended_witness :
    dictGet? [("Title", Value.str "t"), ("Title_formatted", Value.str "t")] "Title" =
      some (Value.str "t") :=
  enhancer_preserves_amended ["Title"] [] [("Title", Value.str "t")]
    [("Title", Value.str "t"), ("Title_formatted", Value.str "t")]
    (by
      intro k hk
      have hkT : k = "Title" := by
        by_cases h : "Title" = k
        · exact h.symm
        · simp [dictGet?, h] at hk
      subst hkT
      exact ⟨by decide, by decide, by decide, by decide,
        ne_append_formatted_of_short "Title" (by decide)⟩)
    (by decide) "Title" (Value.str "t") rfl

/-- C10: the enhancer does not mutate the caller's record.  In the heap model the
input cell is untouched: all writes go to the freshly allocated copy, on both the
success and the error path. -/
theorem enhancer_input_cell_unchanged (fs : List String) (gm : List (String × String))
    (r : Dict) : ((enhanceOnHeap fs gm [r] 0).1).getD 0 [] = r := by
  unfold enhanceOnHeap
  dsimp only
  split <;> rfl

/-- C5: when the text contains a markdown-style link, `extract_author_info`
returns the name and url of the link found at the first matching position (all
earlier starts fail the pattern) together with the catalog id extracted from that
url by the trailing-segment rule; on the spec's example it returns
`("Jane Doe", "http://example.com/B00ABCDEFG", "B00ABCDEFG")`. -/
theorem extract_first_link :
    (∀ t n u, findLink t = some (n, u) →
      extract_author_info t = (n, some u, extractIsbn u) ∧
      ∃ i, matchLinkAt (t.data.drop i) = some (n, u) ∧
           ∀ j, j < i → matchLinkAt (t.data.drop j) = none) ∧
    extract_author_info "[Jane Doe](http://example.com/B00ABCDEFG)" =
      ("Jane Doe", some "http://example.com/B00ABCDEFG", some "B00ABCDEFG") := by
  constructor
  · intro t n u h
    constructor
    · have ht : t ≠ "" := by
        intro he
        subst he
        simp [findLink, findLinkAux] at h
      unfold extract_author_info
      rw [if_neg ht, h]
    · exact findLinkAux_first t.data (n, u) h
  · decide

theorem extract_first_link_witness :
    extract_author_info "[a](b)" = ("a", some "b", extractIsbn "b") :=
  (extract_first_link.1 "[a](b)" "a" "b" (by decide)).1

/-- C6: for every genre code absent from the taxonomy (in particular with an
empty taxonomy) the lookup falls back, without failing, to the code with
underscores replaced by spaces and Python title-casing applied; e.g.
`cozy_mystery` becomes `Cozy Mystery`. -/
theorem genre_display_fallback :
    (∀ gm code, lookupStr gm code = none →
      get_genre_display_name gm code = pyTitle (replaceChar '_' ' ' code)) ∧
    get_genre_display_name [] "cozy_mystery" = "Cozy Mystery" := by
  constructor
  · intro gm code h
    unfold get_genre_display_name
    rw [h]
  · decide

theorem genre_display_fallback_witness :
    get_genre_display_name [("romance", "Romance")] "space_opera" =
      pyTitle (replaceChar '_' ' ' "space_opera") :=
  genre_display_fallback.1 [("romance", "Romance")] "space_opera" (by decide)

theorem format_price_reduce (fs : List String) (hfs : "price" ∈ fs) (v : Value)
    (hv : ¬(v = Value.null ∨ v = Value.str "")) :
    format_field_value fs "price" v = tryFloat v (fun q => "$" ++ fmtFixed 2 q) := by
  unfold format_field_value
  rw [if_neg hv, if_neg (not_not_intro hfs), if_pos rfl]

/-- C7 counterexample: the empty string is not numeric, yet the price formatter
does not return it unmodified — the null/empty rule fires first and yields
`"N/A"`. -/
theorem price_format_empty_string_cex :
    format_field_value ["price"] "price" (Value.str "") = Except.ok "N/A" ∧
    Except.ok "N/A" ≠ (Except.ok "" : Except PyErr String) :=
  ⟨by decide, by decide⟩

theorem format_price_numeric_str (fs : List String) (hfs : "price" ∈ fs)
    (s : String) (q : ℚ) (hp : parseFloat s = some q) :
    format_field_value fs "price" (Value.str s) = Except.ok ("$" ++ fmtFixed 2 q) := by
  have hs : s ≠ "" := by
    intro he
    subst he
    rw [show parseFloat "" = none from rfl] at hp
    cases hp
  rw [format_price_reduce fs hfs _ (by simp [hs])]
  simp [tryFloat, pyFloat, hp]

/-- C7 (amended): for the price field (having a field spec), every value that
`float()` accepts as a finite number — numbers, booleans, and numeric strings
including point, exponent and underscore forms — formats as a fixed two-decimal
currency string (`12.3` gives `"$12.30"`, `"1e5"` gives `"$100000.00"`); a value
`float()` rejects is returned unmodified via `str()` (`"abc"` gives `"abc"`),
except `None` and the empty string, which yield `"N/A"` by the null/empty rule;
the formatter never raises.  The unmodified-return conjunct is stated on the
strings where the embedded float grammar is exact (`floatExactStr`, and not an
`inf`/`nan` form, which CPython accepts as a non-finite float). -/
theorem price_format_amended (fs : List String) (hfs : "price" ∈ fs) :
    (∀ q : ℚ, format_field_value fs "price" (Value.num q) =
      Except.ok ("$" ++ fmtFixed 2 q)) ∧
    (∀ (s : String) (q : ℚ), parseFloat s = some q →
      format_field_value fs "price" (Value.str s) = Except.ok ("$" ++ fmtFixed 2 q)) ∧
    (∀ s : String, s ≠ "" → floatExactStr s = true → isInfNanForm s = false →
      parseFloat s = none →
      format_field_value fs "price" (Value.str s) = Except.ok s) ∧
    (∀ b : Bool, format_field_value fs "price" (Value.bool b) =
      Except.ok ("$" ++ fmtFixed 2 (if b then 1 else 0))) ∧
    format_field_value fs "price" (Value.num (12.3 : ℚ)) = Except.ok "$12.30" ∧
    format_field_value fs "price" (Value.str "1e5") = Except.ok "$100000.00" ∧
    format_field_value fs "price" (Value.str "abc") = Except.ok "abc" ∧
    format_field_value fs "price" (Value.str "") = Except.ok "N/A" ∧
    format_field_value fs "price" Value.null = Except.ok "N/A" := by
  refine ⟨?_, ?_, ?_, ?_, ?_, ?_, ?_, ?_, ?_⟩
  · intro q
    rw [format_price_reduce fs hfs _ (by simp)]
    rfl
  · intro s q hp
    exact format_price_numeric_str fs hfs s q hp
  · intro s hs _hfe _hnan hp
    rw [format_price_reduce fs hfs _ (by simp [hs])]
    simp [tryFloat, pyFloat, hp, pyStr]
  · intro b
    rw [format_price_reduce fs hfs _ (by simp)]
    rfl
  · have h123 : (12.3 : ℚ) = ⟨123, 10, by decide, by decide⟩ := by
      rw [Rat.mk'_eq_divInt, Rat.divInt_eq_div]
      norm_num
    rw [h123, format_price_reduce fs hfs _ (by decide)]
    decide
  · have hp : parseFloat "1e5" =
        some ((1 : ℚ) * (((1 : ℕ) : ℚ) + ((0 : ℕ) : ℚ) / (10 : ℚ) ^ (0 : ℕ)) *
          (10 : ℚ) ^ (((5 : ℕ) : ℤ))) := rfl
    have hval : (1 : ℚ) * (((1 : ℕ) : ℚ) + ((0 : ℕ) : ℚ) / (10 : ℚ) ^ (0 : ℕ)) *
        (10 : ℚ) ^ (((5 : ℕ) : ℤ)) = 100000 := by norm_num
    have h := format_price_numeric_str fs hfs "1e5" _ hp
    rw [hval] at h
    exact h.trans (by decide)
  · rw [format_price_reduce fs hfs _ (by decide)]
    decide
  · unfold format_field_value
    rw [if_pos (Or.inr rfl)]
  · unfold format_field_value
    rw [if_pos (Or.inl rfl)]

theorem price_format_amended_witness :
    format_field_value ["price"] "price" (Value.num (12.3 : ℚ)) = Except.ok "$12.30" :=
  (price_format_amended ["price"] (by decide)).2.2.2.2.1

/-- C8 counterexample: tokens that are empty after trimming are dropped, not
rejoined — `"a||b"` formats to `"a, b"`, not `"a, , b"` — and the empty string is
not passed through unchanged but hits the null/empty rule first. -/
theorem delimited_list_cex :
    format_field_value ["topicTags"] "topicTags" (Value.str "a||b") = Except.ok "a, b" ∧
    "a, b" ≠ "a, , b" ∧
    format_field_value ["topicTags"] "topicTags" (Value.str "") = Except.ok "N/A" :=
  ⟨by decide, by decide, by decide⟩

/-- C8 (amended): for every nonempty string value of a delimited-list field with
a spec, the value is split on `|` when present, else on `#` when present; tokens
are stripped and tokens that are empty after stripping are dropped; the remaining
tokens are rejoined with `", "`; a nonempty string with neither delimiter passes
through unchanged (the empty string yields `"N/A"` by the null/empty rule). -/
theorem delimited_list_amended (fs : List String) (f : String) (s : String)
    (hf : f = "topicTags" ∨ f = "subcatsList") (hfs : f ∈ fs) (hs : s ≠ "") :
    format_field_value fs f (Value.str s) = Except.ok
      (if containsChar '|' s then
         String.intercalate ", " (((pySplit '|' s).map pyStrip).filter (fun t => t ≠ ""))
       else if containsChar '#' s then
         String.intercalate ", " (((pySplit '#' s).map pyStrip).filter (fun t => t ≠ ""))
       else s) := by
  have hv : ¬(Value.str s = Value.null ∨ Value.str s = Value.str "") := by simp [hs]
  rcases hf with rfl | rfl
  · unfold format_field_value
    rw [if_neg hv, if_neg (not_not_intro hfs), if_neg (by decide), if_neg (by decide),
        if_neg (by decide), if_neg (by decide), if_neg (by decide), if_neg (by decide),
        if_pos (Or.inl rfl)]
    rfl
  · unfold format_field_value
    rw [if_neg hv, if_neg (not_not_intro hfs), if_neg (by decide), if_neg (by decide),
        if_neg (by decide), if_neg (by decide), if_neg (by decide), if_neg (by decide),
        if_pos (Or.inr rfl)]
    rfl

theorem delimited_list_amended_witness :
    format_field_value ["topicTags"] "topicTags" (Value.str "a|b") = Except.ok
      (if containsChar '|' "a|b" then
         String.intercalate ", " (((pySplit '|' "a|b").map pyStrip).filter (fun t => t ≠ ""))
       else if containsChar '#' "a|b" then
         String.intercalate ", " (((pySplit '#' "a|b").map pyStrip).filter (fun t => t ≠ ""))
       else "a|b") :=
  delimited_list_amended ["topicTags"] "topicTags" "a|b" (Or.inl rfl) (by decide) (by decide)

end BookLab
